import Mathlib

/-!
Formal model of the vm-orchestrator proof-of-concept server
(`src/server.js` together with the schema in `database.sql`): the
`execute-command` socket handler, the per-chunk `data` handlers, the
`close` handler, and the `GET /api/jobs` history query, together with
the `jobs` table they read and write.

Modelling choices:

* The `jobs` table is a list of rows; SQL `INSERT`/`UPDATE` statements
  become list operations.
* Socket emissions and database writes are trace items, so that
  ordering properties can be stated over traces.
* The asynchronous callback/await structure of the handler (stdout and
  stderr `data` events, the `close` event, and the awaited pool
  queries, whose completions may interleave arbitrarily because the
  `pg` pool runs them on independent connections) is a small-step
  system driven by an explicit schedule; properties quantify over all
  schedules.
* Timestamps (`NOW()`) are abstracted as naturals supplied by the
  caller; exit codes are `Option Int`, `none` standing for the `null`
  code of an abnormally terminated process.
-/

namespace VMOrch

/-- Row of the `jobs` table (`database.sql`): `id, type, command, status,
started_at, finished_at NULLABLE`. -/
structure JobRow where
  id : String
  type : String
  command : String
  status : String
  started_at : Nat
  finished_at : Option Nat
  deriving DecidableEq

/-- Line 71 of `server.js`: `const status = code === 0 ? 'success' : 'failed'`.
The exit code is `none` when the process terminated without a clean exit
code (killed), in which case the strict comparison with `0` is false. -/
def statusOfCode (code : Option Int) : String :=
  if code = some 0 then "success" else "failed"

/-- Line 57 of `server.js`:
`INSERT INTO jobs (id, type, command, status) VALUES ($1,$2,$3,'running')`.
`started_at` takes the schema default `NOW()` (the `now` argument) and
`finished_at` is left at its default `NULL`. -/
def insertJob (db : List JobRow) (id ty cmd : String) (now : Nat) : List JobRow :=
  db ++ [{ id := id, type := ty, command := cmd, status := "running",
           started_at := now, finished_at := none }]

/-- Line 72 of `server.js`:
`UPDATE jobs SET status = $1, finished_at = NOW() WHERE id = $2`.
Both columns are written in the same (atomic) statement; the `WHERE`
clause is the only guard — there is no condition on the current status. -/
def updateJobStatus (db : List JobRow) (id status : String) (now : Nat) : List JobRow :=
  db.map fun r => if r.id = id then { r with status := status, finished_at := some now } else r

/-- The whole `close` handler database write (lines 70-72 of `server.js`):
translate the exit code and apply the unconditional update. -/
def finalizeJob (db : List JobRow) (id : String) (code : Option Int) (now : Nat) : List JobRow :=
  updateJobStatus db id (statusOfCode code) now

/-- Invariant of section 3 of the spec: `finished_at` is non-null iff the
status is terminal. -/
def jobInv (r : JobRow) : Prop :=
  r.finished_at.isSome = true ↔ (r.status = "success" ∨ r.status = "failed")

/-- States of the `jobs` table reachable through the only two statements
the server ever runs against it: the `INSERT` of the `execute-command`
handler and the `UPDATE` of the `close` handler. -/
inductive JobsReachable : List JobRow → Prop
  | empty : JobsReachable []
  | insertStep (db : List JobRow) (id ty cmd : String) (now : Nat) :
      JobsReachable db → JobsReachable (insertJob db id ty cmd now)
  | finalizeStep (db : List JobRow) (id : String) (code : Option Int) (now : Nat) :
      JobsReachable db → JobsReachable (finalizeJob db id code now)

theorem statusOfCode_terminal (code : Option Int) :
    statusOfCode code = "success" ∨ statusOfCode code = "failed" := by
  unfold statusOfCode
  by_cases h : code = some 0 <;> simp [h]

/-- C1: every reachable state of the `jobs` table satisfies the
invariant: `finished_at` is non-null iff `status ∈ {success, failed}`.
The insert creates the row with status `running` and `finished_at`
null, and the only statement that ever writes `finished_at` is the
finalize update, which sets a terminal status and `finished_at` in the
same atomic write. -/
theorem C1_finished_at_iff_terminal (db : List JobRow) (h : JobsReachable db) :
    ∀ r ∈ db, jobInv r := by
  induction h with
  | empty => intro r hr; cases hr
  | insertStep db id ty cmd now _ ih =>
    intro r hr
    unfold insertJob at hr
    rcases List.mem_append.mp hr with hl | hl
    · exact ih r hl
    · rcases List.mem_singleton.mp hl with rfl
      simp [jobInv]
  | finalizeStep db id code now _ ih =>
    intro r hr
    unfold finalizeJob updateJobStatus at hr
    rcases List.mem_map.mp hr with ⟨r0, hr0, heq⟩
    by_cases hid : r0.id = id
    · rw [if_pos hid] at heq
      subst heq
      simpa [jobInv] using statusOfCode_terminal code
    · rw [if_neg hid] at heq
      subst heq
      exact ih r0 hr0

theorem C1_finished_at_iff_terminal_witness :
    jobInv { id := "j1", type := "local", command := "echo hi", status := "success",
             started_at := 0, finished_at := some 5 } :=
  C1_finished_at_iff_terminal
    (finalizeJob (insertJob [] "j1" "local" "echo hi" 0) "j1" (some 0) 5)
    (JobsReachable.finalizeStep _ "j1" (some 0) 5
      (JobsReachable.insertStep [] "j1" "local" "echo hi" 0 JobsReachable.empty))
    _ (by decide)

/-- C4: for a finalized job row, exit code `some 0` yields status
`success`, a nonzero code yields `failed`, and an abnormal termination
without a clean exit code (`none`) also yields `failed`. -/
theorem C4_exit_code_determines_status (db : List JobRow) (jobId : String)
    (code : Option Int) (now : Nat) (r : JobRow)
    (hr : r ∈ finalizeJob db jobId code now) (hid : r.id = jobId) :
    (code = some 0 → r.status = "success") ∧
    (∀ z : Int, code = some z → z ≠ 0 → r.status = "failed") ∧
    (code = none → r.status = "failed") := by
  unfold finalizeJob updateJobStatus at hr
  rcases List.mem_map.mp hr with ⟨r0, _, heq⟩
  by_cases h0 : r0.id = jobId
  · rw [if_pos h0] at heq
    subst heq
    refine ⟨fun hc => ?_, fun z hz hz0 => ?_, fun hc => ?_⟩
    · simp [statusOfCode, hc]
    · simp [statusOfCode, hz, hz0]
    · simp [statusOfCode, hc]
  · rw [if_neg h0] at heq
    subst heq
    exact absurd hid h0

theorem C4_exit_code_determines_status_witness :
    ({ id := "j1", type := "local", command := "echo hi", status := "failed",
       started_at := 0, finished_at := some 5 } : JobRow).status = "failed" :=
  (C4_exit_code_determines_status
      (insertJob [] "j1" "local" "echo hi" 0) "j1" (some 2) 5 _
      (by decide) rfl).2.1 2 rfl (by decide)

/-- C5 counterexample: the finalize update is unconditional (no guard on
the current status), so re-finalizing an already-terminal job is NOT a
no-op: finalizing with exit code 0 and then again with exit code 1
overwrites the terminal status `success` with `failed` and moves
`finished_at`. -/
theorem C5_counterexample :
    (List.map JobRow.status
        (finalizeJob (finalizeJob (insertJob [] "j1" "local" "echo hi" 0) "j1" (some 0) 1)
          "j1" (some 1) 2) = ["failed"]) ∧
    (List.map JobRow.status
        (finalizeJob (insertJob [] "j1" "local" "echo hi" 0) "j1" (some 0) 1) = ["success"]) ∧
    finalizeJob (finalizeJob (insertJob [] "j1" "local" "echo hi" 0) "j1" (some 0) 1)
        "j1" (some 1) 2 ≠
      finalizeJob (insertJob [] "j1" "local" "echo hi" 0) "j1" (some 0) 1 := by
  decide

/-- C5 (amended): there is no idempotent guard — the finalize update is
an unconditional last-writer-wins overwrite: applying `finalizeJob` a
second time to the same id is equivalent to having applied only the
second call, overwriting both status and `finished_at`. -/
theorem C5_refinalize_overwrites (db : List JobRow) (id : String)
    (c1 c2 : Option Int) (n1 n2 : Nat) :
    finalizeJob (finalizeJob db id c1 n1) id c2 n2 = finalizeJob db id c2 n2 := by
  unfold finalizeJob updateJobStatus
  rw [List.map_map]
  apply List.map_congr_left
  intro r _
  by_cases h : r.id = id <;> simp [h]

/-- Socket.IO emissions of the handler (section 4.6 of the spec): the
four event kinds the server sends to the requesting connection. -/
inductive Evt
  | errorEvt (message : String)
  | jobStarted (jobId command : String)
  | jobLog (jobId stream data : String)
  | jobFinished (jobId status : String) (exitCode : Option Int)
  deriving DecidableEq

/-- Database statements the handler issues (hand-offs to the
persistence store). -/
inductive DbOp
  | insertJobOp (id ty command status : String)
  | appendLogOp (jobId stream data : String)
  | updateJobOp (id status : String)
  deriving DecidableEq

/-- One observable hand-off: either a database statement is issued or a
socket event is emitted. -/
inductive Item
  | issue (op : DbOp)
  | emit (e : Evt)
  deriving DecidableEq

/-- Entry of the hard-coded `COMMANDS` map (lines 30-34 of `server.js`). -/
structure CommandSpec where
  type : String
  cmd : String
  args : List String
  deriving DecidableEq

/-- The own properties of the `COMMANDS` object literal, lines 30-34 of
`server.js`: the three registered command keys and their specs. -/
def COMMANDS : String → Option CommandSpec := fun key =>
  if key = "vm-status" then
    some { type := "local", cmd := "echo", args := ["Simulating make status...done."] }
  else if key = "vm-logs" then
    some { type := "local", cmd := "echo", args := ["Simulating make logs...fake log output."] }
  else if key = "docker-ps" then
    some { type := "ssh", cmd := "echo", args := ["Simulating ssh command...container up."] }
  else none

/-- Line 55 of `server.js`: `const cmdStr = c.cmd + ' ' + c.args.join(' ')`. -/
def cmdString (c : CommandSpec) : String :=
  c.cmd ++ " " ++ String.intercalate " " c.args

/-- Keys of the members every plain JavaScript object literal inherits
from `Object.prototype`.  All of them are truthy values (functions, and
for `__proto__` the `Object.prototype` object itself). -/
def objectProtoMembers : List String :=
  ["constructor", "hasOwnProperty", "isPrototypeOf", "propertyIsEnumerable",
   "toLocaleString", "toString", "valueOf",
   "__defineGetter__", "__defineSetter__", "__lookupGetter__", "__lookupSetter__",
   "__proto__"]

/-- What the JavaScript property read `COMMANDS[key]` on line 49 can
yield: the object literal's own property (a command spec); a truthy
member inherited from `Object.prototype` (no command spec behind it);
or `undefined`. -/
inductive JsLookup
  | own (c : CommandSpec)
  | inheritedMember
  | undef
  deriving DecidableEq

/-- The lookup `COMMANDS[key]` with JavaScript prototype-chain
semantics: an own property wins, otherwise an `Object.prototype`
member is found (truthy, so the `if (!c)` guard on line 50 does not
fire for it), otherwise the read yields `undefined` (falsy). -/
def lookupCOMMANDS (key : String) : JsLookup :=
  match COMMANDS key with
  | some c => JsLookup.own c
  | none =>
    if key ∈ objectProtoMembers then JsLookup.inheritedMember else JsLookup.undef

theorem lookupCOMMANDS_own (key : String) (c : CommandSpec) (h : COMMANDS key = some c) :
    lookupCOMMANDS key = JsLookup.own c := by
  unfold lookupCOMMANDS
  rw [h]

/-- Outcome of the awaited `INSERT INTO jobs` on line 57: either the
query resolves, or it rejects with an error message, which the `await`
turns into a thrown exception caught on line 75. -/
inductive InsertOutcome
  | ok
  | fail (message : String)
  deriving DecidableEq

/-- Outcome of `spawn(c.cmd, c.args)` on line 59.  For the launch
failures named in section 7 of the spec (missing binary, permission
denial), `spawn` does not throw: it returns a `ChildProcess` handle and
delivers the failure asynchronously on the child's `error` event.
`server.js` registers listeners only for `stdout`/`stderr` `data` and
for `close` — no `error` listener — so that emission becomes an
uncaught exception: the `catch` on line 75 never runs, nothing further
reaches the socket, and no `data` or `close` callback will fire.  (An
unreachable ssh host is not a launch failure at this level: the local
process starts and the remote failure surfaces as a nonzero exit code
on the ordinary `close` path.) -/
inductive SpawnOutcome
  | ok
  | errorEventNoListener (message : String)
  deriving DecidableEq

/-- What one `execute-command` invocation leaves behind before any
`data`/`close` callback runs: the events emitted on the requesting
socket (in order), the resulting `jobs` table, whether a process is
running (and will produce `data`/`close` events), and whether the
invocation ended in an exception nothing caught (a throw outside the
`try`, or an `error` emission with no listener) — which crashes the
server instead of reaching the socket. -/
structure SyncResult where
  events : List Evt
  jobs : List JobRow
  spawned : Bool
  uncaught : Bool
  deriving DecidableEq

/-- The `execute-command` handler, lines 48-77 of `server.js`, up to the
registration of the `data`/`close` callbacks.  The lookup on line 49
has three outcomes: `undefined` (falsy, so the guard on lines 50-53
emits `error{Unknown command: <key>}` and returns); a truthy inherited
`Object.prototype` member, which passes the `!c` guard, so line 55
evaluates `c.args.join(' ')` on a function and throws a `TypeError`
outside the `try` — the async callback rejects unhandled and nothing is
emitted; or the registered spec, after which the handler enters the
`try`: it awaits the `INSERT` (line 57; a rejection is caught on line
75 and emits `error{message}` only — no compensating `UPDATE`), emits
`job-started` (line 58), and calls `spawn` (line 59), whose launch
failures surface only later on the unhandled `error` event. -/
def executeCommandSync (db : List JobRow) (key jobId : String) (now : Nat)
    (ins : InsertOutcome) (sp : SpawnOutcome) : SyncResult :=
  match lookupCOMMANDS key with
  | JsLookup.undef =>
    { events := [Evt.errorEvt ("Unknown command: " ++ key)], jobs := db,
      spawned := false, uncaught := false }
  | JsLookup.inheritedMember =>
    { events := [], jobs := db, spawned := false, uncaught := true }
  | JsLookup.own c =>
    match ins with
    | InsertOutcome.fail msg =>
      { events := [Evt.errorEvt msg], jobs := db, spawned := false, uncaught := false }
    | InsertOutcome.ok =>
      let db1 := insertJob db jobId c.type (cmdString c) now
      match sp with
      | SpawnOutcome.errorEventNoListener _ =>
        { events := [Evt.jobStarted jobId (cmdString c)], jobs := db1,
          spawned := false, uncaught := true }
      | SpawnOutcome.ok =>
        { events := [Evt.jobStarted jobId (cmdString c)], jobs := db1,
          spawned := true, uncaught := false }

/-- C7 counterexample: `"toString"` is not in the registry, yet
`COMMANDS["toString"]` yields the truthy inherited
`Object.prototype.toString`, the `!c` guard is skipped, and line 55
throws outside the `try`: the handler emits no event at all — in
particular not the `error{Unknown command: toString}` event the claim
promises for every unregistered key. -/
theorem C7_counterexample :
    executeCommandSync [] "toString" "j1" 0 InsertOutcome.ok SpawnOutcome.ok =
      { events := [], jobs := [], spawned := false, uncaught := true } ∧
    ¬ (executeCommandSync [] "toString" "j1" 0 InsertOutcome.ok SpawnOutcome.ok).events =
        [Evt.errorEvt "Unknown command: toString"] := by
  decide

/-- C7 (amended): for every key whose lookup yields `undefined` — not
registered and not an inherited `Object.prototype` member — the handler
emits exactly one `error{Unknown command: <key>}` event, inserts no
row, spawns no process and emits no job event; for an unregistered key
that hits an inherited member (such as `toString`), the truthy lookup
bypasses the guard and line 55 throws outside the `try`: still no row
is inserted, no process spawned and no job event emitted, but no
`error` event is emitted either — the async callback rejects
unhandled. -/
theorem C7_unknown_key (db : List JobRow) (key jobId : String) (now : Nat)
    (ins : InsertOutcome) (sp : SpawnOutcome) :
    (lookupCOMMANDS key = JsLookup.undef →
      executeCommandSync db key jobId now ins sp =
        { events := [Evt.errorEvt ("Unknown command: " ++ key)], jobs := db,
          spawned := false, uncaught := false }) ∧
    (lookupCOMMANDS key = JsLookup.inheritedMember →
      executeCommandSync db key jobId now ins sp =
        { events := [], jobs := db, spawned := false, uncaught := true }) := by
  constructor
  · intro h
    unfold executeCommandSync
    rw [h]
  · intro h
    unfold executeCommandSync
    rw [h]

theorem C7_unknown_key_witness :
    executeCommandSync [] "nope" "j1" 0 InsertOutcome.ok SpawnOutcome.ok =
      { events := [Evt.errorEvt "Unknown command: nope"], jobs := [],
        spawned := false, uncaught := false } :=
  (C7_unknown_key [] "nope" "j1" 0 InsertOutcome.ok SpawnOutcome.ok).1 (by decide)

/-- C10: when the key resolves but the initial `INSERT` rejects, the
`await` throws before `job-started` is emitted and before `spawn` is
reached: the handler emits exactly one `error` event carrying the
failure message, spawns nothing, and the `jobs` table is unchanged
(zero rows inserted). -/
theorem C10_insert_failure_atomic (db : List JobRow) (key jobId : String) (now : Nat)
    (sp : SpawnOutcome) (c : CommandSpec) (msg : String) (hc : COMMANDS key = some c) :
    executeCommandSync db key jobId now (InsertOutcome.fail msg) sp =
      { events := [Evt.errorEvt msg], jobs := db, spawned := false, uncaught := false } := by
  unfold executeCommandSync
  rw [lookupCOMMANDS_own key c hc]

theorem C10_insert_failure_atomic_witness :
    executeCommandSync [] "vm-status" "j1" 0
        (InsertOutcome.fail "connection refused") SpawnOutcome.ok =
      { events := [Evt.errorEvt "connection refused"], jobs := [],
        spawned := false, uncaught := false } :=
  C10_insert_failure_atomic [] "vm-status" "j1" 0 SpawnOutcome.ok
    { type := "local", cmd := "echo", args := ["Simulating make status...done."] }
    "connection refused" (by decide)

/-- C6 counterexample: when the binary cannot be launched (the child's
`error` event fires with ENOENT and no listener is registered), the
`catch` never runs: the row created by the insert stays with status
`running`, not `failed` — and the only socket event of the invocation
is the `job-started` already emitted, with the `error` emission ending
as an uncaught exception. -/
theorem C6_counterexample :
    (List.map JobRow.status
        (executeCommandSync [] "vm-status" "j1" 3 InsertOutcome.ok
            (SpawnOutcome.errorEventNoListener "spawn echo ENOENT")).jobs = ["running"]) ∧
    ¬ (List.map JobRow.status
        (executeCommandSync [] "vm-status" "j1" 3 InsertOutcome.ok
            (SpawnOutcome.errorEventNoListener "spawn echo ENOENT")).jobs = ["failed"]) ∧
    (executeCommandSync [] "vm-status" "j1" 3 InsertOutcome.ok
        (SpawnOutcome.errorEventNoListener "spawn echo ENOENT")).events =
      [Evt.jobStarted "j1" "echo Simulating make status...done."] := by
  decide

/-- C6 (amended): when the process cannot be launched (missing binary
or permission denial), the failure arrives on the child's `error` event,
for which `server.js` registers no listener: the emission is an
uncaught exception, so after the already-emitted `job-started` nothing
further reaches the socket, no `data` or `close` callback fires, no
compensating `UPDATE` runs, and the job row created in `running` state
is left in `running` state — not transitioned to `failed`.  (An
unreachable remote host, by contrast, is a nonzero exit of the local
`ssh` process, which the ordinary `close` path does finalize as
`failed`, as the last conjunct records.) -/
theorem C6_spawn_failure_leaves_running (db : List JobRow) (key jobId : String)
    (now : Nat) (c : CommandSpec) (msg : String) (hc : COMMANDS key = some c) :
    (executeCommandSync db key jobId now InsertOutcome.ok
        (SpawnOutcome.errorEventNoListener msg)).events =
        [Evt.jobStarted jobId (cmdString c)] ∧
    (executeCommandSync db key jobId now InsertOutcome.ok
        (SpawnOutcome.errorEventNoListener msg)).jobs =
        db ++ [{ id := jobId, type := c.type, command := cmdString c, status := "running",
                 started_at := now, finished_at := none }] ∧
    (executeCommandSync db key jobId now InsertOutcome.ok
        (SpawnOutcome.errorEventNoListener msg)).spawned = false ∧
    (executeCommandSync db key jobId now InsertOutcome.ok
        (SpawnOutcome.errorEventNoListener msg)).uncaught = true ∧
    (∀ z : Int, z ≠ 0 → statusOfCode (some z) = "failed") := by
  unfold executeCommandSync
  rw [lookupCOMMANDS_own key c hc]
  refine ⟨rfl, rfl, rfl, rfl, fun z hz => ?_⟩
  simp [statusOfCode, hz]

theorem C6_spawn_failure_leaves_running_witness :
    (executeCommandSync [] "docker-ps" "j2" 7 InsertOutcome.ok
        (SpawnOutcome.errorEventNoListener "spawn ENOENT")).jobs =
      [] ++ [{ id := "j2", type := "ssh",
               command := cmdString { type := "ssh", cmd := "echo",
                                      args := ["Simulating ssh command...container up."] },
               status := "running", started_at := 7, finished_at := none }] :=
  (C6_spawn_failure_leaves_running [] "docker-ps" "j2" 7
    { type := "ssh", cmd := "echo", args := ["Simulating ssh command...container up."] }
    "spawn ENOENT" (by decide)).2.1

/-- Result of one run of the `close` handler (lines 70-74 of
`server.js`): the resulting `jobs` table, the events emitted, and how
many times the finalize `UPDATE` was attempted. -/
structure CloseResult where
  jobs : List JobRow
  events : List Evt
  updateAttempts : Nat
  deriving DecidableEq

/-- The `close` handler, lines 70-74 of `server.js`: compute the status
from the exit code, await the single `UPDATE`, then emit
`job-finished`.  There is exactly one `UPDATE` statement and no retry
logic: if the awaited query rejects, the `await` throws out of the
async callback, the table is unchanged and `job-finished` is never
emitted. -/
def closeHandler (db : List JobRow) (jobId : String) (code : Option Int) (now : Nat)
    (updateOk : Bool) : CloseResult :=
  let st := statusOfCode code
  if updateOk then
    { jobs := updateJobStatus db jobId st now,
      events := [Evt.jobFinished jobId st code], updateAttempts := 1 }
  else
    { jobs := db, events := [], updateAttempts := 1 }

/-- C9 counterexample: a single failing finalize write is attempted
exactly once — not retried — and leaves the job in status `running`
with no `job-finished` event. -/
theorem C9_counterexample :
    (closeHandler [{ id := "j1", type := "local", command := "echo hi",
                     status := "running", started_at := 0, finished_at := none }]
        "j1" (some 0) 5 false).updateAttempts = 1 ∧
    List.map JobRow.status
        (closeHandler [{ id := "j1", type := "local", command := "echo hi",
                         status := "running", started_at := 0, finished_at := none }]
          "j1" (some 0) 5 false).jobs = ["running"] ∧
    (closeHandler [{ id := "j1", type := "local", command := "echo hi",
                     status := "running", started_at := 0, finished_at := none }]
        "j1" (some 0) 5 false).events = [] := by
  decide

/-- C9 (amended): the finalize write is attempted exactly once whether
it succeeds or fails; on failure there is no retry — the table is left
unchanged (the job still `running`) and `job-finished` is not emitted. -/
theorem C9_finalize_not_retried (db : List JobRow) (jobId : String)
    (code : Option Int) (now : Nat) :
    (∀ updateOk : Bool, (closeHandler db jobId code now updateOk).updateAttempts = 1) ∧
    (closeHandler db jobId code now false).jobs = db ∧
    (closeHandler db jobId code now false).events = [] := by
  refine ⟨fun updateOk => ?_, rfl, rfl⟩
  cases updateOk <;> rfl

/-- The stdout `data` handler, lines 60-64 of `server.js` (the stderr
handler on lines 65-69 is identical with stream `stderr`): the chunk is
first handed to the persistence store (`INSERT INTO job_logs`), the
result is awaited, and only then is `job-log` emitted.  `appendOk`
says whether the awaited insert resolves; when it rejects, the `await`
throws out of the async callback and the emit on the next line is never
reached. -/
def dataHandler (jobId stream chunk : String) (appendOk : Bool) : List Item :=
  Item.issue (DbOp.appendLogOp jobId stream chunk) ::
    (if appendOk then [Item.emit (Evt.jobLog jobId stream chunk)] else [])

/-- Recognizer for `job-log` emissions. -/
def isLogEmit : Item → Bool
  | Item.emit (Evt.jobLog _ _ _) => true
  | _ => false

/-- Recognizer for `job_logs` inserts. -/
def isAppendIssue : Item → Bool
  | Item.issue (DbOp.appendLogOp _ _ _) => true
  | _ => false

/-- C3 counterexample: the two sinks are not independent — when the
persistence append of a chunk fails, the chunk's `job-log` emission to
the notification channel is suppressed (zero emissions), whereas with a
successful append it is emitted once. -/
theorem C3_counterexample :
    List.countP isLogEmit (dataHandler "j1" "stdout" "a" false) = 0 ∧
    List.countP isLogEmit (dataHandler "j1" "stdout" "a" true) = 1 := by
  decide

/-- C3 (amended): per chunk, the persistence append is issued first,
exactly once, regardless of anything downstream — so a notification
failure can neither suppress nor duplicate it — and the `job-log`
event is never duplicated; but the emission is not independent of
persistence: the chunk is emitted to the notification channel exactly
when its append succeeds, so a persistence failure suppresses it. -/
theorem C3_append_first_emit_iff_append_ok (jobId stream chunk : String) (appendOk : Bool) :
    List.countP isAppendIssue (dataHandler jobId stream chunk appendOk) = 1 ∧
    (dataHandler jobId stream chunk appendOk).head? =
      some (Item.issue (DbOp.appendLogOp jobId stream chunk)) ∧
    List.countP isLogEmit (dataHandler jobId stream chunk appendOk) =
      (if appendOk then 1 else 0) := by
  cases appendOk <;>
    simp [dataHandler, isAppendIssue, isLogEmit, List.countP_cons]

/-- Comparison realizing `ORDER BY started_at DESC`: `a` comes no later
than `b` in the result when `a` started no earlier than `b`. -/
def recentFirst (a b : JobRow) : Prop := b.started_at ≤ a.started_at

instance : DecidableRel recentFirst := fun a b => Nat.decLe b.started_at a.started_at

instance : IsTotal JobRow recentFirst :=
  ⟨fun a b => (Nat.le_total b.started_at a.started_at).imp id id⟩

instance : IsTrans JobRow recentFirst :=
  ⟨fun _ _ _ hab hbc => Nat.le_trans hbc hab⟩

/-- The `GET /api/jobs` handler, lines 38-45 of `server.js`:
`SELECT id, type, command, status, started_at, finished_at FROM jobs
ORDER BY started_at DESC LIMIT 10`.  The request object is available to
the handler (`req`), but its `limit` query parameter is never read:
`LIMIT 10` is hard-coded in the SQL. -/
def apiJobsHandler (db : List JobRow) (_limitParam : Option Nat) : List JobRow :=
  (List.insertionSort recentFirst db).take 10

/-- A sample job row used to populate concrete tables. -/
def sampleRow : JobRow :=
  { id := "r", type := "local", command := "echo hi", status := "running",
    started_at := 1, finished_at := none }

/-- C8 counterexample: with 6 jobs in the table and `?limit=5` on the
request, the handler returns 6 rows — more than the requested 5 —
because the SQL ignores the parameter and always uses `LIMIT 10`. -/
theorem C8_counterexample :
    (apiJobsHandler (List.replicate 6 sampleRow) (some 5)).length = 6 ∧
    ¬ (apiJobsHandler (List.replicate 6 sampleRow) (some 5)).length ≤ 5 := by
  decide

/-- C8 (amended): the handler ignores the `limit` query parameter
entirely; for every request it returns the job summaries ordered by
`started_at` descending, truncated to the hard-coded 10 — so at most 10
rows, and exactly 10 when the table holds 15 jobs. -/
theorem C8_hardcoded_limit_ten (db : List JobRow) (lim : Option Nat) :
    apiJobsHandler db lim = apiJobsHandler db none ∧
    (apiJobsHandler db lim).length ≤ 10 ∧
    List.Sorted recentFirst (apiJobsHandler db lim) ∧
    (db.length = 15 → (apiJobsHandler db lim).length = 10) := by
  refine ⟨rfl, ?_, ?_, fun h15 => ?_⟩
  · unfold apiJobsHandler
    rw [List.length_take]
    exact Nat.min_le_left _ _
  · exact List.Pairwise.sublist (List.take_sublist 10 _)
      (List.sorted_insertionSort recentFirst db)
  · unfold apiJobsHandler
    rw [List.length_take, List.length_insertionSort, h15]
    decide

theorem C8_hardcoded_limit_ten_witness :
    (apiJobsHandler (List.replicate 15 sampleRow) (some 7)).length = 10 :=
  (C8_hardcoded_limit_ten (List.replicate 15 sampleRow) (some 7)).2.2.2 (by decide)

/-- A continuation left pending by an `await` inside one of the async
callbacks: after the `job_logs` insert of a chunk resolves, the `data`
callback emits `job-log` (lines 62-63 and 67-68); after the jobs
`UPDATE` resolves, the `close` callback emits `job-finished`
(lines 72-73). -/
inductive PendingTask
  | logTask (stream data : String)
  | finishTask (status : String) (exitCode : Option Int)
  deriving DecidableEq

/-- State of one job's event-driven execution after a successful spawn
(lines 59-74 of `server.js`): the chunks not yet delivered by the
stdout and stderr streams, the not-yet-fired `close` code, the pending
await-continuations, and the trace of hand-offs so far. -/
structure AsyncState where
  jobId : String
  outChunks : List String
  errChunks : List String
  closeCode : Option (Option Int)
  pending : List PendingTask
  trace : List Item
  deriving DecidableEq

/-- The socket event a pending continuation emits when its awaited
query resolves. -/
def taskEvent (jobId : String) : PendingTask → Evt
  | PendingTask.logTask stream data => Evt.jobLog jobId stream data
  | PendingTask.finishTask status exitCode => Evt.jobFinished jobId status exitCode

/-- One scheduler step.  Choice 0 (resp. 1) fires the next stdout
(resp. stderr) `data` event: the callback body runs synchronously up to
its first `await`, issuing the `job_logs` insert and leaving the
`job-log` emission pending.  Choice 2 fires `close`, which Node raises
only after both streams are exhausted: the callback issues the jobs
`UPDATE` and leaves the `job-finished` emission pending.  Choice `k+3`
resolves the `k`-th outstanding query: the pool runs queries on
independent connections, so outstanding queries may resolve in any
order; the continuation then emits its event.  A choice whose guard
does not hold changes nothing. -/
def step (s : AsyncState) : Nat → AsyncState
  | 0 =>
    match s.outChunks with
    | [] => s
    | d :: rest =>
      { s with outChunks := rest,
               pending := s.pending ++ [PendingTask.logTask "stdout" d],
               trace := s.trace ++ [Item.issue (DbOp.appendLogOp s.jobId "stdout" d)] }
  | 1 =>
    match s.errChunks with
    | [] => s
    | d :: rest =>
      { s with errChunks := rest,
               pending := s.pending ++ [PendingTask.logTask "stderr" d],
               trace := s.trace ++ [Item.issue (DbOp.appendLogOp s.jobId "stderr" d)] }
  | 2 =>
    match s.closeCode, s.outChunks, s.errChunks with
    | some code, [], [] =>
      { s with closeCode := none,
               pending := s.pending ++ [PendingTask.finishTask (statusOfCode code) code],
               trace := s.trace ++ [Item.issue (DbOp.updateJobOp s.jobId (statusOfCode code))] }
    | _, _, _ => s
  | Nat.succ (Nat.succ (Nat.succ k)) =>
    match s.pending[k]? with
    | none => s
    | some t =>
      { s with pending := s.pending.eraseIdx k,
               trace := s.trace ++ [Item.emit (taskEvent s.jobId t)] }

/-- Run a whole schedule of steps. -/
def run (s : AsyncState) : List Nat → AsyncState
  | [] => s
  | c :: cs => run (step s c) cs

/-- State right after line 59: the insert has been issued and resolved,
`job-started` has been emitted, the process is spawned with its output
(`outs`, `errs`) and eventual exit code still to come, and no callback
has fired yet. -/
def initState (jobId ty command : String) (outs errs : List String)
    (code : Option Int) : AsyncState :=
  { jobId := jobId, outChunks := outs, errChunks := errs, closeCode := some code,
    pending := [],
    trace := [Item.issue (DbOp.insertJobOp jobId ty command "running"),
              Item.emit (Evt.jobStarted jobId command)] }

/-- An execution is complete when both streams are exhausted, `close`
has fired, and every awaited query has resolved. -/
def isComplete (s : AsyncState) : Bool :=
  s.outChunks.isEmpty && s.errChunks.isEmpty && s.closeCode.isNone && s.pending.isEmpty

/-- Recognizer for `job-started` emissions. -/
def isStartedEmit : Item → Bool
  | Item.emit (Evt.jobStarted _ _) => true
  | _ => false

/-- Recognizer for `job-finished` emissions. -/
def isFinishedEmit : Item → Bool
  | Item.emit (Evt.jobFinished _ _ _) => true
  | _ => false

/-- Recognizer for the pending `job-finished` continuation. -/
def isFinishTask : PendingTask → Bool
  | PendingTask.finishTask _ _ => true
  | _ => false

/-- The database statement of a trace item, if it is one. -/
def itemIssue : Item → Option DbOp
  | Item.issue op => some op
  | Item.emit _ => none

/-- The database statements of an execution, in issue order. -/
def dbIssues (s : AsyncState) : List DbOp := s.trace.filterMap itemIssue

/-- Recognizer for `job_logs` inserts among database statements. -/
def isAppendOp : DbOp → Bool
  | DbOp.appendLogOp _ _ _ => true
  | _ => false

/-- C2 counterexample: a complete execution of a valid key (one stdout
chunk `a`, exit code 0) under the schedule «deliver the chunk, fire
close, resolve the `UPDATE` first, resolve the chunk's insert last».
The `job-finished` event is emitted, but the last event of the job is
the chunk's `job-log` emission: `job-finished` is not last, because
each `data` callback emits only after its awaited insert resolves, and
the pool may resolve the `UPDATE` before an earlier insert. -/
theorem C2_counterexample :
    isComplete (run (initState "j1" "local" "echo a" ["a"] [] (some 0)) [0, 2, 4, 3]) = true ∧
    List.countP isFinishedEmit
        (run (initState "j1" "local" "echo a" ["a"] [] (some 0)) [0, 2, 4, 3]).trace = 1 ∧
    (run (initState "j1" "local" "echo a" ["a"] [] (some 0)) [0, 2, 4, 3]).trace.getLast? =
      some (Item.emit (Evt.jobLog "j1" "stdout" "a")) := by
  decide

theorem isStartedEmit_issue (op : DbOp) : isStartedEmit (Item.issue op) = false := rfl

theorem isStartedEmit_taskEvent (jid : String) (t : PendingTask) :
    isStartedEmit (Item.emit (taskEvent jid t)) = false := by
  cases t <;> rfl

theorem isFinishedEmit_issue (op : DbOp) : isFinishedEmit (Item.issue op) = false := rfl

theorem isFinishedEmit_taskEvent (jid : String) (t : PendingTask) :
    isFinishedEmit (Item.emit (taskEvent jid t)) = isFinishTask t := by
  cases t <;> rfl

theorem isAppendIssue_emit (e : Evt) : isAppendIssue (Item.emit e) = false := rfl

theorem itemIssue_issue (op : DbOp) : itemIssue (Item.issue op) = some op := rfl

theorem itemIssue_emit (e : Evt) : itemIssue (Item.emit e) = none := rfl

theorem countP_eraseIdx_resolve {α : Type} (p : α → Bool) (l : List α) :
    ∀ (k : Nat) (t : α), l[k]? = some t →
      (l.eraseIdx k).countP p + (if p t then 1 else 0) = l.countP p := by
  induction l with
  | nil => intro k t h; simp at h
  | cons a l ih =>
    intro k t h
    cases k with
    | zero =>
      rw [List.getElem?_cons_zero] at h
      injection h with h
      subst h
      rw [List.eraseIdx_cons_zero, List.countP_cons]
    | succ k =>
      rw [List.getElem?_cons_succ] at h
      have hk := ih k t h
      rw [List.eraseIdx_cons_succ, List.countP_cons, List.countP_cons]
      omega

theorem step_started_count (s : AsyncState) (c : Nat) :
    (step s c).trace.countP isStartedEmit = s.trace.countP isStartedEmit := by
  obtain ⟨jid, outs, errs, cc, pend, tr⟩ := s
  rcases c with _ | _ | _ | k
  · cases outs <;>
      simp [step, List.countP_append, List.countP_cons, isStartedEmit_issue]
  · cases errs <;>
      simp [step, List.countP_append, List.countP_cons, isStartedEmit_issue]
  · rcases cc with _ | code
    · simp [step]
    · cases outs
      · cases errs
        · simp [step, List.countP_append, List.countP_cons, isStartedEmit_issue]
        · simp [step]
      · simp [step]
  · rcases hp : pend[k]? with _ | t
    · simp [step, hp]
    · simp [step, hp, List.countP_append, List.countP_cons, isStartedEmit_taskEvent]

/-- Number of `job-finished` emissions an execution still owes plus the
number already emitted: one while `close` has not fired (the emission
will come from the continuation `close` will enqueue), and afterwards
the single enqueued continuation or the single emitted event. -/
def finishCount (s : AsyncState) : Nat :=
  (if s.closeCode.isSome then 1 else 0)
    + s.pending.countP isFinishTask + s.trace.countP isFinishedEmit

theorem step_finishCount (s : AsyncState) (c : Nat) :
    finishCount (step s c) = finishCount s := by
  obtain ⟨jid, outs, errs, cc, pend, tr⟩ := s
  rcases c with _ | _ | _ | k
  · cases outs <;>
      simp [step, finishCount, List.countP_append, List.countP_cons,
        isFinishedEmit_issue, isFinishTask]
  · cases errs <;>
      simp [step, finishCount, List.countP_append, List.countP_cons,
        isFinishedEmit_issue, isFinishTask]
  · rcases cc with _ | code
    · simp [step, finishCount]
    · cases outs
      · cases errs
        · simp [step, finishCount, List.countP_append, List.countP_cons,
            isFinishedEmit_issue, isFinishTask]
          omega
        · simp [step, finishCount]
      · simp [step, finishCount]
  · rcases hp : pend[k]? with _ | t
    · simp [step, hp, finishCount]
    · have hk := countP_eraseIdx_resolve isFinishTask pend k t hp
      simp only [step, hp, finishCount, List.countP_append, List.countP_cons,
        List.countP_nil, isFinishedEmit_taskEvent]
      omega

theorem step_append_account (s : AsyncState) (c : Nat) :
    (step s c).trace.countP isAppendIssue + (step s c).outChunks.length
        + (step s c).errChunks.length
      = s.trace.countP isAppendIssue + s.outChunks.length + s.errChunks.length := by
  obtain ⟨jid, outs, errs, cc, pend, tr⟩ := s
  rcases c with _ | _ | _ | k
  · cases outs with
    | nil => simp [step]
    | cons d rest =>
      simp [step, List.countP_append, List.countP_cons, isAppendIssue]
      omega
  · cases errs with
    | nil => simp [step]
    | cons d rest =>
      simp [step, List.countP_append, List.countP_cons, isAppendIssue]
      omega
  · rcases cc with _ | code
    · simp [step]
    · cases outs
      · cases errs
        · simp [step, List.countP_append, List.countP_cons, isAppendIssue]
        · simp [step]
      · simp [step]
  · rcases hp : pend[k]? with _ | t
    · simp [step, hp]
    · simp [step, hp, List.countP_append, List.countP_cons, isAppendIssue_emit]

/-- Shape of the database statements a partial execution has issued:
the job insert first; then, as long as `close` has not fired, only
`job_logs` appends; once `close` has fired (which requires both streams
exhausted), the finalize `UPDATE` carrying the status computed from the
exit code — and nothing after it. -/
def ShapeInv (jid ty cmd : String) (code : Option Int) (s : AsyncState) : Prop :=
  s.jobId = jid ∧
  ∃ apps : List DbOp, (∀ op ∈ apps, isAppendOp op = true) ∧
    ((s.closeCode = some code ∧
        dbIssues s = DbOp.insertJobOp jid ty cmd "running" :: apps) ∨
     (s.closeCode = none ∧ s.outChunks = [] ∧ s.errChunks = [] ∧
        dbIssues s = DbOp.insertJobOp jid ty cmd "running" ::
          (apps ++ [DbOp.updateJobOp jid (statusOfCode code)])))

theorem step_shapeInv (jid ty cmd : String) (code : Option Int) (s : AsyncState)
    (c : Nat) (h : ShapeInv jid ty cmd code s) : ShapeInv jid ty cmd code (step s c) := by
  obtain ⟨jid0, outs, errs, cc, pend, tr⟩ := s
  obtain ⟨hjid, apps, happs, hdisj⟩ := h
  replace hjid : jid0 = jid := hjid
  subst hjid
  rcases c with _ | _ | _ | k
  · cases outs with
    | nil => exact ⟨rfl, apps, happs, hdisj⟩
    | cons d rest =>
      rcases hdisj with ⟨hcc, hiss⟩ | ⟨hcc, hout, herr, hiss⟩
      · refine ⟨rfl, apps ++ [DbOp.appendLogOp jid0 "stdout" d], ?_, Or.inl ⟨hcc, ?_⟩⟩
        · intro op hop
          rcases List.mem_append.mp hop with h1 | h1
          · exact happs op h1
          · rw [List.mem_singleton.mp h1]; rfl
        · unfold dbIssues at hiss ⊢
          simp only [step, List.filterMap_append, List.filterMap_cons, List.filterMap_nil,
            itemIssue_issue]
          rw [hiss]
          simp
      · simp at hout
  · cases errs with
    | nil => exact ⟨rfl, apps, happs, hdisj⟩
    | cons d rest =>
      rcases hdisj with ⟨hcc, hiss⟩ | ⟨hcc, hout, herr, hiss⟩
      · refine ⟨rfl, apps ++ [DbOp.appendLogOp jid0 "stderr" d], ?_, Or.inl ⟨hcc, ?_⟩⟩
        · intro op hop
          rcases List.mem_append.mp hop with h1 | h1
          · exact happs op h1
          · rw [List.mem_singleton.mp h1]; rfl
        · unfold dbIssues at hiss ⊢
          simp only [step, List.filterMap_append, List.filterMap_cons, List.filterMap_nil,
            itemIssue_issue]
          rw [hiss]
          simp
      · simp at herr
  · rcases cc with _ | code0
    · exact ⟨rfl, apps, happs, hdisj⟩
    · cases outs with
      | nil =>
        cases errs with
        | nil =>
          rcases hdisj with ⟨hcc, hiss⟩ | ⟨hcc, hout, herr, hiss⟩
          · replace hcc : (some code0 : Option (Option Int)) = some code := hcc
            injection hcc with hcc
            subst hcc
            refine ⟨rfl, apps, happs, Or.inr ⟨rfl, rfl, rfl, ?_⟩⟩
            unfold dbIssues at hiss ⊢
            simp only [step, List.filterMap_append, List.filterMap_cons, List.filterMap_nil,
              itemIssue_issue]
            rw [hiss]
            simp
          · exact absurd hcc (by simp)
        | cons d rest => exact ⟨rfl, apps, happs, hdisj⟩
      | cons d rest => exact ⟨rfl, apps, happs, hdisj⟩
  · rcases hp : pend[k]? with _ | t
    · simp only [step, hp]
      exact ⟨rfl, apps, happs, hdisj⟩
    · have hstep : step ⟨jid0, outs, errs, cc, pend, tr⟩ (k + 3) =
          ⟨jid0, outs, errs, cc, pend.eraseIdx k,
           tr ++ [Item.emit (taskEvent jid0 t)]⟩ := by
        simp only [step, hp]
      rw [hstep]
      have hsame : List.filterMap itemIssue (tr ++ [Item.emit (taskEvent jid0 t)])
          = List.filterMap itemIssue tr := by
        simp [List.filterMap_append, itemIssue_emit]
      refine ⟨rfl, apps, happs, ?_⟩
      rcases hdisj with ⟨hcc, hiss⟩ | ⟨hcc, hout, herr, hiss⟩
      · exact Or.inl ⟨hcc, by unfold dbIssues at hiss ⊢; rw [hsame]; exact hiss⟩
      · exact Or.inr ⟨hcc, hout, herr,
          by unfold dbIssues at hiss ⊢; rw [hsame]; exact hiss⟩

theorem run_started_count (sched : List Nat) :
    ∀ s : AsyncState, (run s sched).trace.countP isStartedEmit
      = s.trace.countP isStartedEmit := by
  induction sched with
  | nil => intro s; rfl
  | cons c cs ih => intro s; rw [run, ih, step_started_count]

theorem run_finishCount (sched : List Nat) :
    ∀ s : AsyncState, finishCount (run s sched) = finishCount s := by
  induction sched with
  | nil => intro s; rfl
  | cons c cs ih => intro s; rw [run, ih, step_finishCount]

theorem run_append_account (sched : List Nat) :
    ∀ s : AsyncState,
      (run s sched).trace.countP isAppendIssue + (run s sched).outChunks.length
          + (run s sched).errChunks.length
        = s.trace.countP isAppendIssue + s.outChunks.length + s.errChunks.length := by
  induction sched with
  | nil => intro s; rfl
  | cons c cs ih => intro s; rw [run, ih, step_append_account]

theorem run_shapeInv (jid ty cmd : String) (code : Option Int) (sched : List Nat) :
    ∀ s : AsyncState, ShapeInv jid ty cmd code s →
      ShapeInv jid ty cmd code (run s sched) := by
  induction sched with
  | nil => intro s h; exact h
  | cons c cs ih => intro s h; rw [run]; exact ih _ (step_shapeInv jid ty cmd code s c h)

theorem initState_shapeInv (jid ty cmd : String) (outs errs : List String)
    (code : Option Int) :
    ShapeInv jid ty cmd code (initState jid ty cmd outs errs code) := by
  refine ⟨rfl, [], ?_, Or.inl ⟨rfl, rfl⟩⟩
  intro op hop
  cases hop

/-- C2 (amended): every complete execution of a valid key emits exactly
one `job-started` and exactly one `job-finished` event, hands every
output chunk to the persistence store, and issues the finalize
`updateJobStatus` write strictly after every `job_logs` append — the
insert comes first, then only appends, then the `UPDATE`, and no
database statement follows it.  However, the hand-off of a chunk to the
notification channel awaits that chunk's persistence append, so a
`job-log` emission may come after `job-finished` (see the
counterexample): `job-finished` need not be the last event, and the
finalize is ordered after the persistence hand-offs only, not after the
notification hand-offs. -/
theorem C2_lifecycle_events_and_write_order (jid ty cmd : String)
    (outs errs : List String) (code : Option Int) (sched : List Nat)
    (hc : isComplete (run (initState jid ty cmd outs errs code) sched) = true) :
    (run (initState jid ty cmd outs errs code) sched).trace.countP isStartedEmit = 1 ∧
    (run (initState jid ty cmd outs errs code) sched).trace.countP isFinishedEmit = 1 ∧
    (run (initState jid ty cmd outs errs code) sched).trace.countP isAppendIssue
        = outs.length + errs.length ∧
    ∃ apps : List DbOp, (∀ op ∈ apps, isAppendOp op = true) ∧
      dbIssues (run (initState jid ty cmd outs errs code) sched)
        = DbOp.insertJobOp jid ty cmd "running" ::
            (apps ++ [DbOp.updateJobOp jid (statusOfCode code)]) := by
  simp only [isComplete, Bool.and_eq_true, List.isEmpty_iff,
    Option.isNone_iff_eq_none] at hc
  obtain ⟨⟨⟨hout, herr⟩, hclose⟩, hpend⟩ := hc
  refine ⟨?_, ?_, ?_, ?_⟩
  · rw [run_started_count]
    rfl
  · have h := run_finishCount sched (initState jid ty cmd outs errs code)
    unfold finishCount at h
    rw [hclose, hpend] at h
    simpa [initState, isFinishedEmit_issue] using h
  · have h := run_append_account sched (initState jid ty cmd outs errs code)
    rw [hout, herr] at h
    simpa [initState, isAppendIssue_emit, isAppendIssue] using h
  · have h := run_shapeInv jid ty cmd code sched _
      (initState_shapeInv jid ty cmd outs errs code)
    obtain ⟨-, apps, happs, hdisj⟩ := h
    rcases hdisj with ⟨hcc, -⟩ | ⟨-, -, -, hiss⟩
    · rw [hclose] at hcc
      cases hcc
    · exact ⟨apps, happs, hiss⟩

theorem C2_lifecycle_events_and_write_order_witness :
    (run (initState "j1" "local" "echo a" ["a"] [] (some 0)) [0, 2, 3, 3]).trace.countP
        isStartedEmit = 1 ∧
    (run (initState "j1" "local" "echo a" ["a"] [] (some 0)) [0, 2, 3, 3]).trace.countP
        isFinishedEmit = 1 ∧
    (run (initState "j1" "local" "echo a" ["a"] [] (some 0)) [0, 2, 3, 3]).trace.countP
        isAppendIssue = (["a"] : List String).length + ([] : List String).length ∧
    ∃ apps : List DbOp, (∀ op ∈ apps, isAppendOp op = true) ∧
      dbIssues (run (initState "j1" "local" "echo a" ["a"] [] (some 0)) [0, 2, 3, 3])
        = DbOp.insertJobOp "j1" "local" "echo a" "running" ::
            (apps ++ [DbOp.updateJobOp "j1" (statusOfCode (some 0))]) :=
  C2_lifecycle_events_and_write_order "j1" "local" "echo a" ["a"] [] (some 0)
    [0, 2, 3, 3] (by decide)

end VMOrch
